import Mathlib

/-!
# Verification of the type-safe-api orchestration core

A shallow embedding of the orchestration core of the `type-safe-api`
package: the deterministic schema value synthesizer, the option
resolver, the model normalizer, the generation orchestrator, the
variant router, and the option/collection interfaces declared in
`projenrc/projects/type-safe-api-project.ts`.

The repository ships the option and collection interface declarations
(embedded below under their original names) while the executable core
(synthesizer, resolver, normalizer, orchestrator) lives outside the
excerpt; those components are modelled from the specification, each
marked `Modelled from the spec:` in its doc comment.
-/

/-! ## Schema Value Synthesizer (spec §4.3) -/

/-- Modelled from the spec: a schema node — strings (with optional format
hint and enum constraint), integers (with optional minimum/maximum),
booleans, arrays, objects (required and optional properties), unions
(oneOf), and references into the component mapping. -/
inductive Schema where
  | strS (format : Option String) (enumVals : List String)
  | intS (minimum maximum : Option Int)
  | boolS
  | arrS (item : Schema)
  | objS (required : List (String × Schema)) (optionalProps : List (String × Schema))
  | oneOfS (branches : List Schema)
  | refS (name : String)
deriving Repr

/-- A synthesized instance of a schema node: scalar, ordered sequence, or
keyed mapping (spec §3, MockValue). -/
inductive MockValue where
  | str (s : String)
  | int (n : Int)
  | bool (b : Bool)
  | arr (elems : List MockValue)
  | obj (fields : List (String × MockValue))
deriving Repr

/-- Modelled from the spec: the documented maximum nesting depth used to
bound recursive schema expansion at synthesis time (implementer-chosen
constant, spec §4.3 recursion policy). -/
def maxRecursionDepth : Nat := 4

/-- Deterministic hash of a string, used to derive sub-seeds. -/
def strHash (s : String) : Nat :=
  s.foldl (fun h c => (h * 31 + c.toNat) % 1000000007) 7

/-- Modelled from the spec: derive a sub-seed from `(seed, pathContext)` so
that the same schema path always yields the same value regardless of
synthesis order elsewhere in the document (spec §4.3). -/
def subSeed (seed : Nat) (p : List String) : Nat :=
  p.foldl (fun h seg => (h * 1000003 + strHash seg) % 1000000007) (seed % 1000000007)

/-- Pick an integer in `[lo, hi]` from a random draw `r`; if the bounds are
inverted fall back to `lo`. -/
def pickInt (lo hi : Int) (r : Nat) : Int :=
  if hi < lo then lo else lo + Int.ofNat (r % (hi - lo + 1).toNat)

/-- Deterministic string for a format hint, locale and draw (spec §4.3:
string values respect `format` hints and the locale). -/
def formatValue (format : Option String) (locale : String) (r : Nat) : String :=
  format.getD "plain" ++ "-" ++ locale ++ "-" ++ Nat.repr r

/-- Modelled from the spec: the "empty" value for a schema's container kind
(empty sequence for arrays, empty mapping otherwise), used when the
recursion depth bound is reached (spec §4.3 recursion policy). -/
def emptyValue : Schema → MockValue
  | .arrS _ => .arr []
  | _ => .obj []

/-- Whether a schema node is a reference into the component mapping. -/
def Schema.isRef : Schema → Bool
  | .refS _ => true
  | _ => false

mutual

/-- Modelled from the spec: `synthesize(schemaNode, seed, locale,
maxArrayLength, pathContext) -> MockValue` (spec §4.3), plus a component
mapping `comps` for resolving references and a recursion `depth` budget
decremented at each reference expansion. Type dispatch: strings respect
format hints and enum constraints (uniform selection over the enumerated
set); integers respect minimum/maximum; booleans are uniform; arrays have
length uniformly chosen in `[0, maxArrayLength]` with each element
synthesized at path `p + index`; objects synthesize every required
property and each optional property with a fixed inclusion probability of
3/4; oneOf uniformly picks one branch. A reference with exhausted depth
yields the empty value of the referenced container kind. -/
def synthesize (comps : List (String × Schema)) (s : Schema) (seed : Nat)
    (locale : String) (maxArrayLength : Nat) (p : List String) (depth : Nat) :
    MockValue :=
  match s with
  | .strS format enumVals =>
    if enumVals.isEmpty then .str (formatValue format locale (subSeed seed p))
    else .str (enumVals.getD (subSeed seed p % enumVals.length) "")
  | .intS minimum maximum =>
    .int (pickInt (minimum.getD (-2147483648)) (maximum.getD 2147483648) (subSeed seed p))
  | .boolS => .bool (subSeed seed p % 2 == 0)
  | .arrS item =>
    .arr (synthesizeElems comps item seed locale maxArrayLength p depth
      (List.range (subSeed seed p % (maxArrayLength + 1))))
  | .objS required optionalProps =>
    .obj (synthesizeReq comps required seed locale maxArrayLength p depth
      ++ synthesizeOpt comps optionalProps seed locale maxArrayLength p depth)
  | .oneOfS branches =>
    synthesizeNth comps branches seed locale maxArrayLength p depth
      (subSeed seed p % branches.length)
  | .refS name =>
    match depth with
    | 0 => emptyValue ((comps.lookup name).getD (.objS [] []))
    | d + 1 =>
      match comps.lookup name with
      | some s2 => synthesize comps s2 seed locale maxArrayLength p d
      | none => .obj []
termination_by (depth, sizeOf s, 0)

/-- Synthesize one array element per index, each at path `p + index`. -/
def synthesizeElems (comps : List (String × Schema)) (item : Schema) (seed : Nat)
    (locale : String) (maxArrayLength : Nat) (p : List String) (depth : Nat)
    (idxs : List Nat) : List MockValue :=
  match idxs with
  | [] => []
  | i :: rest =>
    synthesize comps item seed locale maxArrayLength (p ++ [Nat.repr i]) depth
      :: synthesizeElems comps item seed locale maxArrayLength p depth rest
termination_by (depth, sizeOf item, idxs.length + 1)

/-- Synthesize every required property of an object, each at path `p + key`. -/
def synthesizeReq (comps : List (String × Schema)) (fields : List (String × Schema))
    (seed : Nat) (locale : String) (maxArrayLength : Nat) (p : List String)
    (depth : Nat) : List (String × MockValue) :=
  match fields with
  | [] => []
  | (k, sk) :: rest =>
    (k, synthesize comps sk seed locale maxArrayLength (p ++ [k]) depth)
      :: synthesizeReq comps rest seed locale maxArrayLength p depth
termination_by (depth, sizeOf fields, 0)

/-- Synthesize optional properties with a fixed inclusion probability; a
recursive (reference) branch is omitted once the depth budget is
exhausted (spec §4.3 recursion policy). -/
def synthesizeOpt (comps : List (String × Schema)) (fields : List (String × Schema))
    (seed : Nat) (locale : String) (maxArrayLength : Nat) (p : List String)
    (depth : Nat) : List (String × MockValue) :=
  match fields with
  | [] => []
  | (k, sk) :: rest =>
    (if subSeed seed (p ++ [k]) % 4 != 0 && !(sk.isRef && depth == 0) then
      [(k, synthesize comps sk seed locale maxArrayLength (p ++ [k]) depth)]
    else [])
      ++ synthesizeOpt comps rest seed locale maxArrayLength p depth
termination_by (depth, sizeOf fields, 0)

/-- Synthesize the `i`-th branch of a oneOf union. -/
def synthesizeNth (comps : List (String × Schema)) (branches : List Schema)
    (seed : Nat) (locale : String) (maxArrayLength : Nat) (p : List String)
    (depth : Nat) (i : Nat) : MockValue :=
  match branches, i with
  | [], _ => .obj []
  | b :: _, 0 => synthesize comps b seed locale maxArrayLength p depth
  | _ :: rest, j + 1 =>
    synthesizeNth comps rest seed locale maxArrayLength p depth j
termination_by (depth, sizeOf branches, 0)

end

/-- Top-level entry: synthesize at the documented recursion depth bound. -/
def synthesizeTop (comps : List (String × Schema)) (s : Schema) (seed : Nat)
    (locale : String) (maxArrayLength : Nat) (p : List String) : MockValue :=
  synthesize comps s seed locale maxArrayLength p maxRecursionDepth

mutual

/-- Nesting height of a mock value (scalars have height 1). -/
def MockValue.height : MockValue → Nat
  | .str _ => 1
  | .int _ => 1
  | .bool _ => 1
  | .arr xs => 1 + MockValue.heightList xs
  | .obj fs => 1 + MockValue.heightFields fs

/-- Maximum height over a list of mock values. -/
def MockValue.heightList : List MockValue → Nat
  | [] => 0
  | x :: rest => max x.height (MockValue.heightList rest)

/-- Maximum height over the values of a field list. -/
def MockValue.heightFields : List (String × MockValue) → Nat
  | [] => 0
  | (_, x) :: rest => max x.height (MockValue.heightFields rest)

end

/-! ## Option Resolver (spec §4.2) -/

/-- A configuration value: a primitive or a nested option object
(used to state that the merge is shallow across object boundaries). -/
inductive OptVal where
  | prim (s : String)
  | obj (fields : List (String × OptVal))
deriving Repr

/-- Modelled from the spec: `resolve(defaultsTable, overrides)` for one
(language, artifactKind) pair — start from defaults; for each field
present in `overrides`, replace the default wholesale (shallow merge, no
deep recursive merge across object boundaries); fields absent in
`overrides` retain defaults (spec §4.2). -/
def resolve (defaults overrides : List (String × OptVal)) : List (String × OptVal) :=
  defaults.map fun kv => (kv.1, (overrides.lookup kv.1).getD kv.2)

/-! ## Generation Orchestrator (spec §4.4) -/

/-- Target languages of the generation matrix. -/
inductive Lang where
  | typescript
  | python
  | java
deriving DecidableEq, Repr

/-- Artifact kinds across both pipeline variants (spec §3 and §4.5). -/
inductive ArtifactKind where
  | runtime
  | infrastructure
  | handlers
  | documentation
  | library
  | mockData
  | clientLibrary
  | hooksLibrary
deriving DecidableEq, Repr

/-- One (language, artifact kind) generation task; `language` is `none` for
language-agnostic tasks such as documentation (spec §3, GenerationTask). -/
structure GenTask where
  language : Option Lang
  kind : ArtifactKind
deriving DecidableEq, Repr

/-- Result of one orchestration run: outputs of succeeded tasks, the
failure list, and the overall success flag (spec §4.4). -/
structure RunResult where
  succeeded : List (GenTask × String)
  failures : List (GenTask × String)
  success : Bool
deriving DecidableEq, Repr

/-- Modelled from the spec: Orchestrator steps 3–4 and the failure policy —
invoke the generator backend per task, collect outputs of succeeded tasks
and a `TaskFailure` per failed task; a single task failure does not abort
sibling tasks, and the run reports success only if zero failures occurred
(spec §4.4). -/
def runTasks (backend : GenTask → Except String String) :
    List GenTask → RunResult
  | [] => ⟨[], [], true⟩
  | t :: rest =>
    let r := runTasks backend rest
    match backend t with
    | .ok o => ⟨(t, o) :: r.succeeded, r.failures, r.success⟩
    | .error e => ⟨r.succeeded, (t, e) :: r.failures, false⟩

/-- Whether an artifact kind is language-agnostic (spec §4.4 step 2:
documentation tasks are deduplicated across languages). -/
def languageAgnostic : ArtifactKind → Bool
  | .documentation => true
  | _ => false

/-- The closed list of artifact kinds of the synchronous variant (spec §3). -/
def allKinds : List ArtifactKind :=
  [.runtime, .infrastructure, .handlers, .documentation, .library, .mockData]

/-- Modelled from the spec: Orchestrator step 2 — build the task matrix as
the cartesian product of requested languages and requested artifact
kinds, except that language-agnostic kinds (documentation) contribute a
single task regardless of how many languages were requested (spec §4.4). -/
def buildTaskMatrix (langs : List Lang) (sel : ArtifactKind → Bool) : List GenTask :=
  (allKinds.filter sel).flatMap fun k =>
    if languageAgnostic k then [⟨none, k⟩]
    else langs.map fun l => ⟨some l, k⟩

/-! ## Model Normalizer (spec §4.1) -/

/-- The two structural flavors of canonical specifications (spec §3). -/
inductive SpecVariant where
  | requestResponse
  | eventChannel
deriving DecidableEq, Repr

/-- One operation of a model: identifier, path or channel, and the schema
references used inside the operation. -/
structure RawOperation where
  opId : String
  channelOrPath : String
  refsUsed : List String
deriving DecidableEq, Repr

/-- A parsed model before normalization: variant tag, required top-level
metadata (service name / title / namespace), operations, components. -/
structure RawModel where
  variant : SpecVariant
  metaName : Option String
  ops : List RawOperation
  components : List (String × Schema)

/-- Normalization error taxonomy (spec §4.1 / §7). -/
inductive NormalizationError where
  | parseFailure
  | unresolvedReference
  | missingMetadata
deriving DecidableEq, Repr

/-- The single normalized representation of an API model: operations plus
the named component mapping, tagged with its variant (spec §3). -/
structure CanonicalSpec where
  variant : SpecVariant
  operations : List RawOperation
  components : List (String × Schema)

/-- Whether every schema reference inside every operation resolves to an
entry of the component mapping. -/
def refClosed (ops : List RawOperation) (comps : List (String × Schema)) : Bool :=
  ops.all fun op => op.refsUsed.all fun r => comps.any fun c => c.1 == r

/-- Modelled from the spec: `normalize(model) -> CanonicalSpec |
NormalizationError` — validate that required top-level metadata is
present, fail on unresolvable references, otherwise flatten into a
CanonicalSpec; never partially emits a CanonicalSpec (spec §4.1). -/
def normalizeModel (m : RawModel) : Except NormalizationError CanonicalSpec :=
  match m.metaName with
  | none => .error .missingMetadata
  | some _ =>
    if refClosed m.ops m.components then
      .ok ⟨m.variant, m.ops, m.components⟩
    else .error .unresolvedReference

/-! ## Variant Router (spec §4.5) and the declared option interfaces
(embedded from `projenrc/projects/type-safe-api-project.ts`; fields of
the external project-host option types are out of scope, so each leaf
option interface is embedded with its `GeneratedProjectOptions` field). -/

/-- The two pipeline variants (spec §4.5). -/
inductive PipelineVariant where
  | sync
  | async
deriving DecidableEq, Repr

/-- Result of routing a requested variant (spec §4.5). -/
structure RouteResult where
  normalizerVariant : SpecVariant
  applicableArtifactKinds : List ArtifactKind
deriving DecidableEq, Repr

/-- Modelled from the spec: the Variant Router — the synchronous variant
exposes {runtime, infrastructure, handlers, documentation, library,
mockData}; the async/websocket variant exposes {client-library,
hooks-library, documentation} and routes to the EventChannelSpec
normalization path (spec §4.5). -/
def route : PipelineVariant → RouteResult
  | .sync =>
    ⟨.requestResponse,
      [.runtime, .infrastructure, .handlers, .documentation, .library, .mockData]⟩
  | .async =>
    ⟨.eventChannel, [.clientLibrary, .hooksLibrary, .documentation]⟩

/-- Options for configuring a generated typescript websocket client library
project (source `GeneratedTypeScriptWebSocketClientOptions`, which extends
`TypeScriptProjectOptions` — external — and `GeneratedProjectOptions`). -/
structure GeneratedTypeScriptWebSocketClientOptions where
  commitGeneratedCode : Option Bool
deriving DecidableEq, Repr

/-- Options for configuring a generated typescript websocket hooks library
project (source `GeneratedTypeScriptWebSocketHooksOptions`). -/
structure GeneratedTypeScriptWebSocketHooksOptions where
  commitGeneratedCode : Option Bool
deriving DecidableEq, Repr

/-- Options for generated websocket libraries (source
`GeneratedWebSocketLibraryOptions`): exactly the typescript websocket
client and typescript websocket hooks projects. -/
structure GeneratedWebSocketLibraryOptions where
  typescriptWebSocketClient : Option GeneratedTypeScriptWebSocketClientOptions
  typescriptWebSocketHooks : Option GeneratedTypeScriptWebSocketHooksOptions
deriving DecidableEq, Repr

/-- Options for the async api html documentation project (source
`GeneratedAsyncApiHtmlDocumentationOptions`). -/
structure GeneratedAsyncApiHtmlDocumentationOptions where
  commitGeneratedCode : Option Bool
deriving DecidableEq, Repr

/-- Options for the async api markdown documentation project (source
`GeneratedAsyncApiMarkdownDocumentationOptions`). -/
structure GeneratedAsyncApiMarkdownDocumentationOptions where
  commitGeneratedCode : Option Bool
deriving DecidableEq, Repr

/-- Options for generated websocket documentation projects (source
`GeneratedWebSocketDocumentationOptions`): exactly AsyncAPI html and
AsyncAPI markdown. -/
structure GeneratedWebSocketDocumentationOptions where
  html : Option GeneratedAsyncApiHtmlDocumentationOptions
  markdown : Option GeneratedAsyncApiMarkdownDocumentationOptions
deriving DecidableEq, Repr

/-! ## Mock data generation options (embedded from
`projenrc/projects/type-safe-api-project.ts`, `MockResponseDataGenerationOptions`) -/

/-- Options for generating mock data (source
`MockResponseDataGenerationOptions`): `disable` (default false), `locale`
(default "en"), `maxArrayLength` (default 3), `seed` (default 1337). -/
structure MockResponseDataGenerationOptions where
  disable : Option Bool
  locale : Option String
  maxArrayLength : Option Nat
  seed : Option Nat
deriving DecidableEq, Repr

/-- Mock data generation parameters after defaults are applied. -/
structure ResolvedMockDataGenerationOptions where
  disable : Bool
  locale : String
  maxArrayLength : Nat
  seed : Nat
deriving DecidableEq, Repr

/-- Modelled from the spec: applying the documented defaults of
`MockResponseDataGenerationOptions` (the `@default` annotations of the
source declaration: disable false, locale "en", maxArrayLength 3, seed
1337); the defaulting code itself lives outside the excerpt. -/
def resolveMockDataOptions (o : MockResponseDataGenerationOptions) :
    ResolvedMockDataGenerationOptions :=
  ⟨o.disable.getD false, o.locale.getD "en", o.maxArrayLength.getD 3, o.seed.getD 1337⟩

/-! ## Project collections (embedded from
`projenrc/projects/type-safe-api-project.ts`, `ProjectCollections`) -/

/-- Collections of projects managed by type-safe-api (source
`ProjectCollections`): the array of all managed projects plus the six
named buckets. Project handles are represented by their names. -/
structure ProjectCollections where
  projects : List String
  model : List String
  runtimes : List String
  infrastructure : List String
  libraries : List String
  documentation : List String
  handlers : List String
deriving DecidableEq, Repr

/-- Modelled from the spec: construction of the final `ProjectCollections`
(the collecting code lives outside the excerpt) — `projects` is the array
of all projects managed by the core, so it gathers every project of every
named bucket (spec §3, ProjectCollection). -/
def buildProjectCollections (model runtimes infrastructure libraries
    documentation handlers : List String) : ProjectCollections :=
  { projects := model ++ runtimes ++ infrastructure ++ libraries
      ++ documentation ++ handlers
    model := model
    runtimes := runtimes
    infrastructure := infrastructure
    libraries := libraries
    documentation := documentation
    handlers := handlers }

/-! ## Supporting lemmas for the synthesizer -/

mutual

/-- Structural height of a schema node (references count as leaves, since
expansion is bounded by the depth budget, not by the schema tree). -/
def Schema.sHeight : Schema → Nat
  | .strS _ _ => 1
  | .intS _ _ => 1
  | .boolS => 1
  | .arrS item => 1 + item.sHeight
  | .objS required optionalProps =>
    1 + max (Schema.sHeightFields required) (Schema.sHeightFields optionalProps)
  | .oneOfS branches => 1 + Schema.sHeightList branches
  | .refS _ => 1

/-- Maximum structural height over the schemas of a field list. -/
def Schema.sHeightFields : List (String × Schema) → Nat
  | [] => 0
  | (_, sk) :: rest => max sk.sHeight (Schema.sHeightFields rest)

/-- Maximum structural height over a list of schemas. -/
def Schema.sHeightList : List Schema → Nat
  | [] => 0
  | b :: rest => max b.sHeight (Schema.sHeightList rest)

end

/-- Maximum structural height over a component mapping. -/
def compsHeight (comps : List (String × Schema)) : Nat :=
  (comps.map fun c => c.2.sHeight).foldr max 0

theorem lookup_sHeight_le {comps : List (String × Schema)} {name : String}
    {s2 : Schema} (h : comps.lookup name = some s2) :
    s2.sHeight ≤ compsHeight comps := by
  induction comps with
  | nil => simp [List.lookup] at h
  | cons c rest ih =>
    obtain ⟨k, v⟩ := c
    simp only [List.lookup] at h
    by_cases hk : name == k
    · simp [hk] at h
      subst h
      simp [compsHeight]
    · simp [hk] at h
      calc s2.sHeight ≤ compsHeight rest := ih h
        _ ≤ compsHeight ((k, v) :: rest) := by
          simp only [compsHeight, List.map_cons, List.foldr_cons]
          omega

theorem heightFields_append (xs ys : List (String × MockValue)) :
    MockValue.heightFields (xs ++ ys)
      = max (MockValue.heightFields xs) (MockValue.heightFields ys) := by
  induction xs with
  | nil => simp [MockValue.heightFields]
  | cons x rest ih =>
    obtain ⟨k, v⟩ := x
    simp [MockValue.heightFields, ih, Nat.max_assoc]

theorem emptyValue_height (s : Schema) : (emptyValue s).height = 1 := by
  cases s <;> simp [emptyValue, MockValue.height, MockValue.heightList,
    MockValue.heightFields]

mutual

/-- The height of any synthesized value is bounded by the schema's
structural height plus the depth budget times a constant depending only
on the component mapping: synthesis always terminates with a finite value. -/
theorem height_synthesize_le (comps : List (String × Schema)) (s : Schema)
    (seed : Nat) (locale : String) (maxArrayLength : Nat) (p : List String)
    (depth : Nat) :
    (synthesize comps s seed locale maxArrayLength p depth).height
      ≤ s.sHeight + depth * (1 + compsHeight comps) := by
  match s with
  | .strS format enumVals =>
    simp only [synthesize]
    split <;> simp [MockValue.height, Schema.sHeight]
  | .intS minimum maximum =>
    simp [synthesize, MockValue.height, Schema.sHeight]
  | .boolS =>
    simp [synthesize, MockValue.height, Schema.sHeight]
  | .arrS item =>
    have h := height_synthesizeElems_le comps item seed locale maxArrayLength p
      depth (List.range (subSeed seed p % (maxArrayLength + 1)))
    simp only [synthesize, MockValue.height, Schema.sHeight]
    omega
  | .objS required optionalProps =>
    have h1 := height_synthesizeReq_le comps required seed locale maxArrayLength p depth
    have h2 := height_synthesizeOpt_le comps optionalProps seed locale maxArrayLength p depth
    simp only [synthesize, MockValue.height, heightFields_append, Schema.sHeight]
    omega
  | .oneOfS branches =>
    have h := height_synthesizeNth_le comps branches seed locale maxArrayLength p
      depth (subSeed seed p % branches.length)
    simp only [synthesize, Schema.sHeight]
    omega
  | .refS name =>
    match depth with
    | 0 =>
      simp [synthesize, emptyValue_height, Schema.sHeight]
    | d + 1 =>
      match hl : comps.lookup name with
      | some s2 =>
        have h := height_synthesize_le comps s2 seed locale maxArrayLength p d
        have hb := lookup_sHeight_le hl
        simp only [synthesize, hl, Schema.sHeight]
        have : (d + 1) * (1 + compsHeight comps)
            = d * (1 + compsHeight comps) + (1 + compsHeight comps) := by ring
        omega
      | none =>
        simp [synthesize, hl, MockValue.height, MockValue.heightFields, Schema.sHeight]

/-- Height bound for synthesized array elements. -/
theorem height_synthesizeElems_le (comps : List (String × Schema)) (item : Schema)
    (seed : Nat) (locale : String) (maxArrayLength : Nat) (p : List String)
    (depth : Nat) (idxs : List Nat) :
    MockValue.heightList (synthesizeElems comps item seed locale maxArrayLength p depth idxs)
      ≤ item.sHeight + depth * (1 + compsHeight comps) := by
  match idxs with
  | [] => simp [synthesizeElems, MockValue.heightList]
  | i :: rest =>
    have h1 := height_synthesize_le comps item seed locale maxArrayLength
      (p ++ [Nat.repr i]) depth
    have h2 := height_synthesizeElems_le comps item seed locale maxArrayLength p depth rest
    simp only [synthesizeElems, MockValue.heightList]
    omega

/-- Height bound for synthesized required properties. -/
theorem height_synthesizeReq_le (comps : List (String × Schema))
    (fields : List (String × Schema)) (seed : Nat) (locale : String)
    (maxArrayLength : Nat) (p : List String) (depth : Nat) :
    MockValue.heightFields (synthesizeReq comps fields seed locale maxArrayLength p depth)
      ≤ Schema.sHeightFields fields + depth * (1 + compsHeight comps) := by
  match fields with
  | [] => simp [synthesizeReq, MockValue.heightFields, Schema.sHeightFields]
  | (k, sk) :: rest =>
    have h1 := height_synthesize_le comps sk seed locale maxArrayLength (p ++ [k]) depth
    have h2 := height_synthesizeReq_le comps rest seed locale maxArrayLength p depth
    simp only [synthesizeReq, MockValue.heightFields, Schema.sHeightFields]
    omega

/-- Height bound for synthesized optional properties. -/
theorem height_synthesizeOpt_le (comps : List (String × Schema))
    (fields : List (String × Schema)) (seed : Nat) (locale : String)
    (maxArrayLength : Nat) (p : List String) (depth : Nat) :
    MockValue.heightFields (synthesizeOpt comps fields seed locale maxArrayLength p depth)
      ≤ Schema.sHeightFields fields + depth * (1 + compsHeight comps) := by
  match fields with
  | [] => simp [synthesizeOpt, MockValue.heightFields, Schema.sHeightFields]
  | (k, sk) :: rest =>
    have h1 := height_synthesize_le comps sk seed locale maxArrayLength (p ++ [k]) depth
    have h2 := height_synthesizeOpt_le comps rest seed locale maxArrayLength p depth
    simp only [synthesizeOpt, Schema.sHeightFields]
    split
    all_goals simp only [List.append_eq, List.nil_append, List.singleton_append,
      MockValue.heightFields]
    all_goals omega

/-- Height bound for a synthesized oneOf branch. -/
theorem height_synthesizeNth_le (comps : List (String × Schema))
    (branches : List Schema) (seed : Nat) (locale : String)
    (maxArrayLength : Nat) (p : List String) (depth : Nat) (i : Nat) :
    (synthesizeNth comps branches seed locale maxArrayLength p depth i).height
      ≤ 1 + Schema.sHeightList branches + depth * (1 + compsHeight comps) := by
  match branches, i with
  | [], _ =>
    simp only [synthesizeNth, MockValue.height, MockValue.heightFields]
    omega
  | b :: rest, 0 =>
    have h := height_synthesize_le comps b seed locale maxArrayLength p depth
    simp only [synthesizeNth, Schema.sHeightList]
    omega
  | b :: rest, j + 1 =>
    have h := height_synthesizeNth_le comps rest seed locale maxArrayLength p depth j
    simp only [synthesizeNth, Schema.sHeightList]
    omega

end

theorem pickInt_bounds {lo hi : Int} (r : Nat) (h : lo ≤ hi) :
    lo ≤ pickInt lo hi r ∧ pickInt lo hi r ≤ hi := by
  have hpos : 0 < (hi - lo + 1).toNat := by omega
  have hm : r % (hi - lo + 1).toNat < (hi - lo + 1).toNat := Nat.mod_lt _ hpos
  simp only [pickInt, Int.ofNat_eq_natCast, if_neg (show ¬ hi < lo by omega)]
  omega

theorem getD_mod_mem {es : List String} (h : es ≠ []) (r : Nat) :
    es.getD (r % es.length) "" ∈ es := by
  have hlen : 0 < es.length := List.length_pos.mpr h
  have hm : r % es.length < es.length := Nat.mod_lt _ hlen
  rw [List.getD_eq_getElem?_getD, List.getElem?_eq_getElem hm]
  simp

/-! ## Claim theorems: Schema Value Synthesizer -/

/-- Claim C1: two calls to `synthesize` with identical arguments return
bit-identical MockValues, and the value at a given schema path depends
only on (seed, path) and the schema: the property value at key `k` of a
synthesized object equals the standalone synthesis of that property's
schema at path `p + k`, regardless of which sibling properties appear
before or after it in the document. -/
theorem mock_determinism_and_path_locality :
    (∀ comps s seed locale maxArrayLength p depth,
      synthesize comps s seed locale maxArrayLength p depth
        = synthesize comps s seed locale maxArrayLength p depth) ∧
    (∀ comps seed locale maxArrayLength p depth
        (req1 req2 : List (String × Schema)) k sk,
      (∀ e ∈ req1, e.1 ≠ k) →
      (synthesizeReq comps (req1 ++ (k, sk) :: req2) seed locale maxArrayLength
          p depth).lookup k
        = some (synthesize comps sk seed locale maxArrayLength (p ++ [k]) depth)) := by
  refine ⟨fun _ _ _ _ _ _ _ => rfl, ?_⟩
  intro comps seed locale maxArrayLength p depth req1 req2 k sk h
  induction req1 with
  | nil =>
    simp [synthesizeReq, List.lookup]
  | cons e rest ih =>
    obtain ⟨k1, s1⟩ := e
    have hk1 : k1 ≠ k := h (k1, s1) (List.mem_cons_self _ _)
    have hk : (k == k1) = false := beq_eq_false_iff_ne.mpr (Ne.symm hk1)
    have ih2 := ih fun e he => h e (List.mem_cons_of_mem _ he)
    simpa [synthesizeReq, List.lookup, hk] using ih2

/-- Claim C1 witness at a concrete input. -/
theorem mock_determinism_and_path_locality_witness :
    (synthesizeReq [] ([("other", Schema.boolS)] ++ ("target", Schema.boolS) :: [])
        1337 "en" 3 [] maxRecursionDepth).lookup "target"
      = some (synthesize [] Schema.boolS 1337 "en" 3 ([] ++ ["target"])
          maxRecursionDepth) :=
  mock_determinism_and_path_locality.2 [] 1337 "en" 3 [] maxRecursionDepth
    [("other", Schema.boolS)] [] "target" Schema.boolS (by decide)

/-- Claim C2: synthesis of any schema, including schemas that reference
themselves directly or transitively, terminates with a finite MockValue —
the nesting height of every synthesized value is bounded by the schema's
structural height plus the fixed depth budget times a constant of the
component mapping; once the budget is exhausted, a recursive reference
resolves to the empty value of its container kind, and an optional
recursive property is omitted. -/
theorem recursion_boundedness :
    (∀ comps s seed locale maxArrayLength p depth,
      (synthesize comps s seed locale maxArrayLength p depth).height
        ≤ s.sHeight + depth * (1 + compsHeight comps)) ∧
    (∀ comps name seed locale maxArrayLength p,
      synthesize comps (.refS name) seed locale maxArrayLength p 0
        = emptyValue ((comps.lookup name).getD (.objS [] []))) ∧
    (∀ comps k name rest seed locale maxArrayLength p,
      synthesizeOpt comps ((k, .refS name) :: rest) seed locale maxArrayLength p 0
        = synthesizeOpt comps rest seed locale maxArrayLength p 0) := by
  refine ⟨height_synthesize_le, ?_, ?_⟩
  · intro comps name seed locale maxArrayLength p
    simp [synthesize]
  · intro comps k name rest seed locale maxArrayLength p
    simp [synthesizeOpt, Schema.isRef]

/-- Claim C3: every synthesized value satisfies the declared constraints of
its schema: an integer schema with both bounds yields a value between
them, and an enum schema yields a member of the enumerated set. -/
theorem mock_constraint_satisfaction :
    (∀ comps seed locale maxArrayLength p depth (lo hi : Int), lo ≤ hi →
      ∃ v, synthesize comps (.intS (some lo) (some hi)) seed locale
          maxArrayLength p depth = .int v ∧ lo ≤ v ∧ v ≤ hi) ∧
    (∀ comps seed locale maxArrayLength p depth format (es : List String),
      es ≠ [] →
      ∃ v, synthesize comps (.strS format es) seed locale maxArrayLength p depth
          = .str v ∧ v ∈ es) := by
  constructor
  · intro comps seed locale maxArrayLength p depth lo hi h
    refine ⟨pickInt lo hi (subSeed seed p), ?_, (pickInt_bounds _ h).1,
      (pickInt_bounds _ h).2⟩
    simp [synthesize]
  · intro comps seed locale maxArrayLength p depth format es h
    refine ⟨es.getD (subSeed seed p % es.length) "", ?_, getD_mod_mem h _⟩
    simp [synthesize, List.isEmpty_iff, h]

/-- Claim C3 witness: the integer schema `{minimum 5, maximum 10}` and the
enum schema `["A", "B"]` of the specification. -/
theorem mock_constraint_satisfaction_witness :
    (∃ v, synthesize [] (.intS (some 5) (some 10)) 1337 "en" 3 []
        maxRecursionDepth = .int v ∧ 5 ≤ v ∧ v ≤ 10) ∧
    (∃ v, synthesize [] (.strS none ["A", "B"]) 1337 "en" 3 []
        maxRecursionDepth = .str v ∧ v ∈ ["A", "B"]) :=
  ⟨mock_constraint_satisfaction.1 [] 1337 "en" 3 [] maxRecursionDepth 5 10
      (by decide),
    mock_constraint_satisfaction.2 [] 1337 "en" 3 [] maxRecursionDepth none
      ["A", "B"] (by decide)⟩

/-! ## Claim theorems: Option Resolver -/

theorem resolve_lookup (defaults overrides : List (String × OptVal)) (k : String)
    (v : OptVal) (h : defaults.lookup k = some v) :
    (resolve defaults overrides).lookup k = some ((overrides.lookup k).getD v) := by
  induction defaults with
  | nil => simp [List.lookup] at h
  | cons c rest ih =>
    obtain ⟨k1, v1⟩ := c
    by_cases hk : (k == k1) = true
    · have hkk : k = k1 := beq_iff_eq.mp hk
      subst hkk
      simp only [List.lookup, beq_self_eq_true] at h
      simp only [resolve, List.map_cons, List.lookup, beq_self_eq_true]
      simp_all
    · have hkf : (k == k1) = false := by simpa using hk
      simp only [List.lookup, hkf] at h
      simpa [resolve, List.lookup, hkf] using ih h

/-- Claim C4: option resolution is the field-by-field overlay of overrides
on defaults — the key set of the result is exactly that of the defaults
table (every recognized field is defined), a field present in overrides
replaces the default, a field absent keeps its default, and the merge is
shallow: a nested option object supplied in overrides replaces the
default object wholesale. -/
theorem option_resolution_overlay :
    (∀ (defaults overrides : List (String × OptVal)),
      (resolve defaults overrides).map Prod.fst = defaults.map Prod.fst) ∧
    (∀ (defaults overrides : List (String × OptVal)) k v,
      defaults.lookup k = some v →
      (resolve defaults overrides).lookup k
        = some ((overrides.lookup k).getD v)) ∧
    (∀ (defaults overrides : List (String × OptVal)) k v nested,
      defaults.lookup k = some v →
      overrides.lookup k = some (.obj nested) →
      (resolve defaults overrides).lookup k = some (.obj nested)) := by
  refine ⟨?_, resolve_lookup, ?_⟩
  · intro defaults overrides
    simp [resolve]
  · intro defaults overrides k v nested h hov
    rw [resolve_lookup defaults overrides k v h, hov]
    rfl

/-- Claim C4 witness: a nested mock-data option group supplied in the
overrides replaces the default group wholesale, and an absent field keeps
its default. -/
theorem option_resolution_overlay_witness :
    (resolve [("flag", .prim "off"), ("mockData", .obj [("seed", .prim "1")])]
          [("mockData", OptVal.obj [("locale", .prim "fr")])]).lookup "mockData"
        = some (.obj [("locale", .prim "fr")]) ∧
      (resolve [("flag", .prim "off"), ("mockData", .obj [("seed", .prim "1")])]
          [("mockData", OptVal.obj [("locale", .prim "fr")])]).lookup "flag"
        = some ((([("mockData", OptVal.obj [("locale", .prim "fr")])] :
            List (String × OptVal)).lookup "flag").getD (.prim "off")) :=
  ⟨option_resolution_overlay.2.2
      [("flag", .prim "off"), ("mockData", .obj [("seed", .prim "1")])]
      [("mockData", OptVal.obj [("locale", .prim "fr")])]
      "mockData" (.obj [("seed", .prim "1")]) [("locale", .prim "fr")] rfl rfl,
    option_resolution_overlay.2.1
      [("flag", .prim "off"), ("mockData", .obj [("seed", .prim "1")])]
      [("mockData", OptVal.obj [("locale", .prim "fr")])]
      "flag" (.prim "off") rfl⟩

/-! ## Claim theorems: Generation Orchestrator -/

/-- Claim C5: a failing task never aborts its siblings — the run collects
the outputs of exactly the succeeded tasks and a failure list naming
exactly the failed tasks, and reports overall success iff zero failures
occurred; in particular, in a 4-task matrix where only task 3 fails, the
outputs are those of tasks 1, 2 and 4 and the failure list contains only
task 3. -/
theorem partial_failure_isolation :
    (∀ (backend : GenTask → Except String String) (tasks : List GenTask),
      (runTasks backend tasks).succeeded
          = tasks.filterMap (fun t =>
            match backend t with
            | .ok o => some (t, o)
            | .error _ => none)
        ∧ (runTasks backend tasks).failures
          = tasks.filterMap (fun t =>
            match backend t with
            | .error e => some (t, e)
            | .ok _ => none)
        ∧ ((runTasks backend tasks).success = true
            ↔ (runTasks backend tasks).failures = [])) ∧
    ((runTasks
          (fun t => if t = ⟨some .java, .runtime⟩ then .error "backend failure"
            else .ok "generated")
          [⟨some .typescript, .runtime⟩, ⟨some .python, .runtime⟩,
            ⟨some .java, .runtime⟩, ⟨none, .documentation⟩]).succeeded
        = [(⟨some .typescript, .runtime⟩, "generated"),
            (⟨some .python, .runtime⟩, "generated"),
            (⟨none, .documentation⟩, "generated")]
      ∧ (runTasks
          (fun t => if t = ⟨some .java, .runtime⟩ then .error "backend failure"
            else .ok "generated")
          [⟨some .typescript, .runtime⟩, ⟨some .python, .runtime⟩,
            ⟨some .java, .runtime⟩, ⟨none, .documentation⟩]).failures
        = [(⟨some .java, .runtime⟩, "backend failure")]
      ∧ (runTasks
          (fun t => if t = ⟨some .java, .runtime⟩ then .error "backend failure"
            else .ok "generated")
          [⟨some .typescript, .runtime⟩, ⟨some .python, .runtime⟩,
            ⟨some .java, .runtime⟩, ⟨none, .documentation⟩]).success = false) := by
  constructor
  · intro backend tasks
    induction tasks with
    | nil => simp [runTasks]
    | cons t rest ih =>
      match hb : backend t with
      | .ok o =>
        simp only [runTasks, hb, List.filterMap_cons]
        exact ⟨by simp [hb, ih.1], by simp [hb, ih.2.1], by simp [ih.2.1, ih.2.2]⟩
      | .error e =>
        simp only [runTasks, hb, List.filterMap_cons]
        exact ⟨by simp [hb, ih.1], by simp [hb, ih.2.1], by simp⟩
  · decide

theorem languageAgnostic_iff (k : ArtifactKind) :
    languageAgnostic k = true ↔ k = .documentation := by
  cases k <;> simp [languageAgnostic]

theorem filter_doc_of_ne (langs : List Lang) (k : ArtifactKind)
    (h : k ≠ .documentation) :
    ((langs.map fun l => (⟨some l, k⟩ : GenTask)).filter
        fun t => t.kind == .documentation) = [] := by
  induction langs with
  | nil => simp
  | cons l rest ih =>
    simp only [List.map_cons, List.filter_cons]
    have : ((⟨some l, k⟩ : GenTask).kind == ArtifactKind.documentation) = false := by
      simpa using h
    simp [this, ih]

theorem doc_tasks_count (langs : List Lang) (sel : ArtifactKind → Bool)
    (kinds : List ArtifactKind) :
    (((kinds.filter sel).flatMap fun k =>
        if languageAgnostic k then [(⟨none, k⟩ : GenTask)]
        else langs.map fun l => ⟨some l, k⟩).filter
          fun t => t.kind == .documentation).length
      = (kinds.filter sel).countP fun k => k == .documentation := by
  induction kinds with
  | nil => simp
  | cons k rest ih =>
    by_cases hs : sel k = true
    · simp only [List.filter_cons, hs, if_pos, List.flatMap_cons, List.filter_append,
        List.length_append, List.countP_cons]
      by_cases hd : k = ArtifactKind.documentation
      · subst hd
        have hla : languageAgnostic ArtifactKind.documentation = true := rfl
        simp [hla, ih, Nat.add_comm]
      · have hla : languageAgnostic k = false := by
          cases hk : languageAgnostic k
          · rfl
          · exact absurd ((languageAgnostic_iff k).mp hk) hd
        have hbeq : (k == ArtifactKind.documentation) = false := by simpa using hd
        simp [hla, filter_doc_of_ne langs k hd, ih, hbeq]
    · have hs2 : sel k = false := by simpa using hs
      simp [List.filter_cons, hs2, ih]

/-- Claim C6: when documentation is requested together with two or more
target languages, the task matrix contains exactly one documentation
generation task, not one per language. -/
theorem documentation_deduplication (langs : List Lang) (sel : ArtifactKind → Bool)
    (hsel : sel .documentation = true) (hlen : 2 ≤ langs.length) :
    ((buildTaskMatrix langs sel).filter
        fun t => t.kind == .documentation).length = 1 := by
  rw [buildTaskMatrix, doc_tasks_count langs sel allKinds]
  rw [List.countP_filter]
  simp [allKinds, List.countP_cons, hsel]

/-- Claim C6 witness: documentation requested alongside all artifact kinds
for two languages yields exactly one documentation task. -/
theorem documentation_deduplication_witness :
    ((buildTaskMatrix [.typescript, .java] fun _ => true).filter
        fun t => t.kind == .documentation).length = 1 :=
  documentation_deduplication [.typescript, .java] (fun _ => true) rfl
    (by decide)

/-! ## Claim theorems: Model Normalizer -/

/-- Claim C7: every CanonicalSpec produced by the normalizer — in either
flavor, request/response or event-channel — is reference-closed: every
schema reference occurring inside every operation resolves to an entry of
the same document's component mapping (and the produced spec carries the
input's variant tag unchanged). -/
theorem reference_closure (m : RawModel) (spec : CanonicalSpec)
    (h : normalizeModel m = .ok spec) :
    spec.variant = m.variant ∧
      ∀ op ∈ spec.operations, ∀ r ∈ op.refsUsed,
        ∃ c ∈ spec.components, c.1 = r := by
  simp only [normalizeModel] at h
  match hm : m.metaName with
  | none =>
    rw [hm] at h
    exact absurd h (by simp)
  | some name =>
    rw [hm] at h
    by_cases hc : refClosed m.ops m.components = true
    · rw [if_pos hc] at h
      have hspec : spec = ⟨m.variant, m.ops, m.components⟩ := by
        cases h
        rfl
      subst hspec
      refine ⟨rfl, ?_⟩
      intro op hop r hr
      simp only [refClosed, List.all_eq_true, List.any_eq_true] at hc
      obtain ⟨c, hcm, hce⟩ := hc op hop r hr
      exact ⟨c, hcm, by simpa using hce⟩
    · rw [if_neg hc] at h
      exact absurd h (by simp)

/-- Claim C7 witness: a concrete two-operation model in each flavor
normalizes successfully, and the produced spec is reference-closed. -/
theorem reference_closure_witness :
    ((⟨.requestResponse, [⟨"getItem", "/items", ["Item"]⟩],
          [("Item", Schema.boolS)]⟩ : CanonicalSpec).variant
        = SpecVariant.requestResponse
      ∧ ∀ op ∈ ([⟨"getItem", "/items", ["Item"]⟩] : List RawOperation),
          ∀ r ∈ op.refsUsed,
            ∃ c ∈ [("Item", Schema.boolS)], c.1 = r) ∧
    ((⟨.eventChannel, [⟨"onItem", "items-channel", ["Item"]⟩],
          [("Item", Schema.boolS)]⟩ : CanonicalSpec).variant
        = SpecVariant.eventChannel
      ∧ ∀ op ∈ ([⟨"onItem", "items-channel", ["Item"]⟩] : List RawOperation),
          ∀ r ∈ op.refsUsed,
            ∃ c ∈ [("Item", Schema.boolS)], c.1 = r) :=
  ⟨reference_closure
      ⟨.requestResponse, some "MyService", [⟨"getItem", "/items", ["Item"]⟩],
        [("Item", Schema.boolS)]⟩
      ⟨.requestResponse, [⟨"getItem", "/items", ["Item"]⟩],
        [("Item", Schema.boolS)]⟩ rfl,
    reference_closure
      ⟨.eventChannel, some "MyService", [⟨"onItem", "items-channel", ["Item"]⟩],
        [("Item", Schema.boolS)]⟩
      ⟨.eventChannel, [⟨"onItem", "items-channel", ["Item"]⟩],
        [("Item", Schema.boolS)]⟩ rfl⟩

/-! ## Claim theorems: Variant Router and websocket interfaces -/

/-- Claim C8: the async/websocket variant offers exactly the artifact kinds
client-library, hooks-library and documentation — neither mock-data
synthesis nor handler generation — and routes to the event-channel
normalization path; its library options carry exactly the typescript
websocket client and typescript websocket hooks fields, and its
documentation options exactly the AsyncAPI html and markdown fields. -/
theorem websocket_variant_surface :
    ((route .async).applicableArtifactKinds
        = [.clientLibrary, .hooksLibrary, .documentation]
      ∧ (route .async).normalizerVariant = .eventChannel
      ∧ ArtifactKind.mockData ∉ (route .async).applicableArtifactKinds
      ∧ ArtifactKind.handlers ∉ (route .async).applicableArtifactKinds) ∧
    (∀ a b : GeneratedWebSocketLibraryOptions,
      a.typescriptWebSocketClient = b.typescriptWebSocketClient →
      a.typescriptWebSocketHooks = b.typescriptWebSocketHooks → a = b) ∧
    (∀ a b : GeneratedWebSocketDocumentationOptions,
      a.html = b.html → a.markdown = b.markdown → a = b) := by
  refine ⟨⟨rfl, rfl, by decide, by decide⟩, ?_, ?_⟩
  · intro a b h1 h2
    cases a
    cases b
    simp_all
  · intro a b h1 h2
    cases a
    cases b
    simp_all

/-- Claim C8 witness: the two-field determination applied at concrete
websocket library and documentation options. -/
theorem websocket_variant_surface_witness :
    (⟨some ⟨some true⟩, none⟩ : GeneratedWebSocketLibraryOptions)
        = ⟨some ⟨some true⟩, none⟩ ∧
      (⟨none, some ⟨none⟩⟩ : GeneratedWebSocketDocumentationOptions)
        = ⟨none, some ⟨none⟩⟩ :=
  ⟨websocket_variant_surface.2.1 ⟨some ⟨some true⟩, none⟩
      ⟨some ⟨some true⟩, none⟩ rfl rfl,
    websocket_variant_surface.2.2 ⟨none, some ⟨none⟩⟩ ⟨none, some ⟨none⟩⟩
      rfl rfl⟩

/-! ## Claim theorems: mock-data defaults and project collections -/

/-- Claim C9: with no mock-data options supplied, the resolved parameters
are the documented defaults disable = false, locale = "en",
maxArrayLength = 3 and seed = 1337, so mock generation is enabled by
default. -/
theorem mock_data_option_defaults :
    resolveMockDataOptions ⟨none, none, none, none⟩
        = ⟨false, "en", 3, 1337⟩ ∧
      (resolveMockDataOptions ⟨none, none, none, none⟩).disable = false :=
  ⟨rfl, rfl⟩

/-- Claim C10: a ProjectCollections value carries, besides the six named
buckets, a `projects` array of all projects managed by the core, and
every project appearing in any named bucket is a member of that
`projects` array. -/
theorem projects_superset_of_buckets
    (model runtimes infrastructure libraries documentation handlers : List String)
    (p : String)
    (h : p ∈ (buildProjectCollections model runtimes infrastructure libraries
          documentation handlers).model
      ∨ p ∈ (buildProjectCollections model runtimes infrastructure libraries
          documentation handlers).runtimes
      ∨ p ∈ (buildProjectCollections model runtimes infrastructure libraries
          documentation handlers).infrastructure
      ∨ p ∈ (buildProjectCollections model runtimes infrastructure libraries
          documentation handlers).libraries
      ∨ p ∈ (buildProjectCollections model runtimes infrastructure libraries
          documentation handlers).documentation
      ∨ p ∈ (buildProjectCollections model runtimes infrastructure libraries
          documentation handlers).handlers) :
    p ∈ (buildProjectCollections model runtimes infrastructure libraries
        documentation handlers).projects := by
  simp only [buildProjectCollections, List.mem_append] at h ⊢
  tauto

/-- Claim C10 witness: a handler project of a concrete collection is a
member of the `projects` array. -/
theorem projects_superset_of_buckets_witness :
    "my-api-typescript-handlers"
      ∈ (buildProjectCollections ["my-api-model"] ["my-api-typescript-runtime"]
          ["my-api-infra"] [] ["my-api-docs"]
          ["my-api-typescript-handlers"]).projects :=
  projects_superset_of_buckets ["my-api-model"] ["my-api-typescript-runtime"]
    ["my-api-infra"] [] ["my-api-docs"] ["my-api-typescript-handlers"]
    "my-api-typescript-handlers" (by decide)
